import Mathlib

/-!
Verification of the 9P2000 protocol server (package `protocol`, file with
`Dispatch`, `conn.serve`, `NetListener.Serve`).

The embedding models:
* `Dispatch` — the request router (source lines 325-370): the Tversion gate,
  the handled-opcode switch, and the `ServerError` fall-through.
* `serveIteration` — one iteration of the per-connection loop `conn.serve`
  (source lines 265-317): a single 7-byte header read, little-endian header
  decode, a `LimitReader`/`Copy` body read of `size - 7` bytes, dispatch, and
  the reply write; I/O outcomes (errors, bytes delivered) are inputs.
* `serveEvents` — the serial event trace (reads and writes) of the loop over a
  list of per-iteration I/O outcomes.
* `serveAccept` — the acceptor loop of `NetListener.Serve` (source lines
  176-209) with its temporary-error backoff, modelled over a list of accept
  outcomes; sleep durations are in nanoseconds, as `time.Duration` is.

The `SrvR*` handler methods and the marshalling helpers (`MarshalRerrorPkt`,
`ServerError`, `RPCNames`) live in other files of the repository; they are
modelled from the spec (see the doc comments) and, for the handlers, kept
abstract as a function parameter.
-/

namespace NineP

/-- Modelled from the spec: `RPCNames`, the message-type → name map of the
protocol package (spec §4.1 lists value → name for all 28 types). A missing
entry renders as the empty string, as a missing Go map entry does under
`%v` formatting. -/
def RPCNames (t : Nat) : String :=
  if t = 100 then "Tversion" else if t = 101 then "Rversion"
  else if t = 102 then "Tauth" else if t = 103 then "Rauth"
  else if t = 104 then "Tattach" else if t = 105 then "Rattach"
  else if t = 106 then "Terror" else if t = 107 then "Rerror"
  else if t = 108 then "Tflush" else if t = 109 then "Rflush"
  else if t = 110 then "Twalk" else if t = 111 then "Rwalk"
  else if t = 112 then "Topen" else if t = 113 then "Ropen"
  else if t = 114 then "Tcreate" else if t = 115 then "Rcreate"
  else if t = 116 then "Tread" else if t = 117 then "Rread"
  else if t = 118 then "Twrite" else if t = 119 then "Rwrite"
  else if t = 120 then "Tclunk" else if t = 121 then "Rclunk"
  else if t = 122 then "Tremove" else if t = 123 then "Rremove"
  else if t = 124 then "Tstat" else if t = 125 then "Rstat"
  else if t = 126 then "Twstat" else if t = 127 then "Rwstat"
  else ""

/-- The `Server` struct (source lines 47-53): the `NineServer` field `NS` is
abstracted to a `Nat`-valued state, and `Versioned` is the flag the source
comment describes as "set to true on the first call to Tversion". -/
structure Server where
  Versioned : Bool
  ns : Nat
  deriving DecidableEq, Repr

/-- Outcome of one `SrvR*` handler call: the updated `NS` state, the reply
bytes the handler leaves in the buffer, and whether it returned an error.
The handlers are repository code outside the provided sources; per the spec
they act on the session/backend state and write the matching R-message (or
Rerror) into the buffer. -/
structure HandlerResult where
  ns : Nat
  reply : List Nat
  err : Bool
  deriving DecidableEq, Repr

/-- The family of `SrvR*` handlers, abstracted: message type, `NS` state and
buffer contents in, `HandlerResult` out. -/
def Handler : Type := Nat → Nat → List Nat → HandlerResult

/-- What `Dispatch` leaves in the request/reply buffer. `gateRerror` is the
`MarshalRerrorPkt` call of the pre-Tversion gate (modelled from the spec:
an Rerror frame carrying the given tag and error string); `serverError` is
the `ServerError` call of the unsupported-opcode fall-through (modelled from
the spec: an Rerror body carrying the given error string); `handled` is
whatever reply bytes the invoked handler produced. -/
inductive BufOut where
  | gateRerror (tag : Nat) (ename : String)
  | serverError (ename : String)
  | handled (bytes : List Nat)
  deriving DecidableEq, Repr

/-- Result of `Dispatch`: the server after the call, the buffer contents,
and whether `Dispatch` returned a non-nil error. -/
structure DispatchOut where
  server : Server
  out : BufOut
  err : Bool
  deriving DecidableEq, Repr

/-- The message types having a `case` in the second switch of `Dispatch`
(source lines 340-365): Tversion 100, Tattach 104, Tflush 108, Twalk 110,
Topen 112, Tcreate 114, Tread 116, Twrite 118, Tclunk 120, Tremove 122,
Tstat 124, Twstat 126. -/
def handledTypes : List Nat := [100, 104, 108, 110, 112, 114, 116, 118, 120, 122, 124, 126]

/-- `Dispatch` (source lines 325-370). The first switch sets `Versioned` on
`Tversion` and otherwise applies the gate: when `Versioned` is still false it
marshals an Rerror whose tag is the little-endian 16-bit value of the first
two buffer bytes (the tag bytes of the client frame, since the buffer starts
at header byte 5) and returns a non-nil error. The second switch routes the
handled types to their `SrvR*` handler; any other type falls through to
`ServerError` with a "not supported" message and a nil return. -/
def Dispatch (h : Handler) (s : Server) (b : List Nat) (t : Nat) : DispatchOut :=
  if t = 100 then
    let s1 : Server := { s with Versioned := true }
    let r := h t s1.ns b
    ⟨{ s1 with ns := r.ns }, .handled r.reply, r.err⟩
  else if s.Versioned = false then
    ⟨s, .gateRerror (b.getD 0 0 + b.getD 1 0 * 256)
        ("Dispatch: " ++ RPCNames t ++ " not allowed before Tversion"), true⟩
  else if t ∈ handledTypes then
    let r := h t s.ns b
    ⟨{ s with ns := r.ns }, .handled r.reply, r.err⟩
  else
    ⟨s, .serverError ("Dispatch: " ++ RPCNames t ++ " not supported"), false⟩

/-- The I/O outcomes one iteration of `conn.serve` encounters: the bytes the
single header `Read` returns (`header`, length = the `n` of the source) and
whether it errored; the bytes the connection has available for the body
`Copy` and whether that copy errored; and whether the reply `Write` errored. -/
structure ConnInput where
  header : List Nat
  headerErr : Bool
  bodyStream : List Nat
  bodyErr : Bool
  writeErr : Bool
  deriving DecidableEq, Repr

/-- `sz := int64(l[0]) + int64(l[1])<<8 + int64(l[2])<<16 + int64(l[3])<<24`
(source line 274). -/
def decodeSize (l : List Nat) : Nat :=
  l.getD 0 0 + l.getD 1 0 * 256 + l.getD 2 0 * 65536 + l.getD 3 0 * 16777216

/-- `t := MType(l[4])` (source line 275). -/
def decodeType (l : List Nat) : Nat := l.getD 4 0

/-- `tag := uint16(l[5]) | uint16(l[6])<<8` (source line 276). -/
def decodeTag (l : List Nat) : Nat := l.getD 5 0 + l.getD 6 0 * 256

/-- Result of one iteration of the `conn.serve` loop: whether the connection
was marked `dead`, whether the dispatcher was invoked, whether the reply
`Write` was called, what was written, the server afterwards, the error the
dispatcher returned (logged only), and the body bytes the `LimitReader`
delivered. -/
structure IterResult where
  dead : Bool
  dispatched : Bool
  wroteCalled : Bool
  out : Option BufOut
  server : Server
  dispatchErr : Bool
  bodyRead : List Nat
  deriving DecidableEq, Repr

/-- One iteration of `conn.serve` (source lines 265-317). The header is read
by a single `Read` into a 7-byte buffer; `err != nil || n < 7` marks the
connection dead and returns. Otherwise the header is decoded, the buffer is
seeded with `l[5:]` (the two tag bytes) and the body is copied through
`io.LimitReader(c.Reader, sz-7)` — which delivers `min (sz-7) available`
bytes, and zero bytes when `sz < 7` (a non-positive limit); a copy error
marks the connection dead. The frame is then dispatched — a dispatcher error
is only logged — and the buffer is written back; a write error marks the
connection dead. No size validation of any kind is performed. -/
def serveIteration (h : Handler) (s : Server) (inp : ConnInput) : IterResult :=
  if inp.headerErr || inp.header.length < 7 then
    ⟨true, false, false, none, s, false, []⟩
  else
    let l := inp.header
    let body := inp.bodyStream.take (decodeSize l - 7)
    if inp.bodyErr then
      ⟨true, false, false, none, s, false, []⟩
    else
      let b := l.drop 5 ++ body
      let d := Dispatch h s b (decodeType l)
      ⟨inp.writeErr, true, true, some d.out, d.server, d.err, body⟩

/-- An event of the serial connection loop: the header/body read of the i-th
request, or the write of the i-th request's reply. -/
inductive Event where
  | readf (i : Nat)
  | write (i : Nat)
  deriving DecidableEq, Repr

/-- Order key: the read of request i precedes its write, which precedes the
read of request i+1. -/
def eventKey : Event → Nat
  | .readf i => 2 * i
  | .write i => 2 * i + 1

/-- The event trace of the `conn.serve` loop (source lines 265-317) run over
a list of per-iteration I/O outcomes, numbering requests from `i`. Each
iteration reads one frame and, unless a read failed, writes its reply before
the next frame is read; the loop stops when the connection is marked dead. -/
def serveEvents (h : Handler) : Server → Nat → List ConnInput → List Event
  | _, _, [] => []
  | s, i, inp :: rest =>
    if (serveIteration h s inp).wroteCalled then
      if (serveIteration h s inp).dead then [.readf i, .write i]
      else .readf i :: .write i ::
        serveEvents h (serveIteration h s inp).server (i + 1) rest
    else [.readf i]

/-- Outcome of one `ln.Accept` call in `NetListener.Serve`: a new connection,
an error classified as temporary (`net.Error` with `Temporary()`), or a
non-temporary error. -/
inductive AcceptOutcome where
  | ok
  | tempErr
  | fatalErr
  deriving DecidableEq, Repr

/-- The backoff update of `NetListener.Serve` (source lines 188-196), in
nanoseconds: a zero delay becomes 5 ms, otherwise the delay doubles, and the
result is capped at 1 s. -/
def nextDelay (d : Nat) : Nat :=
  min (if d = 0 then 5000000 else d * 2) 1000000000

/-- The accept loop of `NetListener.Serve` (source lines 176-209) over a list
of accept outcomes, carrying `tempDelay`. Returns the list of sleep durations
(nanoseconds) performed and whether the loop returned with an error. A
successful accept resets `tempDelay` to zero; a temporary error sleeps the
updated delay and continues; a non-temporary error returns. -/
def serveAccept : Nat → List AcceptOutcome → List Nat × Bool
  | _, [] => ([], false)
  | _, .ok :: rest => serveAccept 0 rest
  | d, .tempErr :: rest =>
    let d1 := nextDelay d
    let r := serveAccept d1 rest
    (d1 :: r.1, r.2)
  | _, .fatalErr :: _ => ([], true)

/-- A handler that succeeds and writes nothing: used for concrete runs. -/
def nullHandler : Handler := fun _ ns _ => ⟨ns, [], false⟩

/-- A handler that fails on every call: used for concrete runs. -/
def failHandler : Handler := fun _ ns _ => ⟨ns, [], true⟩

/-- A sequence of `Dispatch` calls on the same `Server`, each message a
(buffer, type) pair, threading the server state. -/
def dispatchList (h : Handler) : Server → List (List Nat × Nat) → Server
  | s, [] => s
  | s, (b, t) :: rest => dispatchList h (Dispatch h s b t).server rest

/-- The list of the next `k` backoff delays starting from delay `d`. -/
def delaysFrom : Nat → Nat → List Nat
  | _, 0 => []
  | d, k + 1 => nextDelay d :: delaysFrom (nextDelay d) k

/- ------------------------------------------------------------------ -/
/- Helper lemmas shared by the claim theorems.                         -/
/- ------------------------------------------------------------------ -/

/-- The buffer handed to `Dispatch` starts with the frame's two tag bytes:
its first two bytes decode (little-endian) to the frame tag. -/
theorem buf_tag_eq (l body : List Nat) (hlen : l.length = 7) :
    (l.drop 5 ++ body).getD 0 0 + (l.drop 5 ++ body).getD 1 0 * 256 = decodeTag l := by
  rcases l with _ | ⟨a0, _ | ⟨a1, _ | ⟨a2, _ | ⟨a3, _ | ⟨a4, _ | ⟨a5, _ | ⟨a6, tl⟩⟩⟩⟩⟩⟩⟩ <;>
    simp_all [decodeTag]

/-- `Dispatch` leaves `Versioned` at `true` exactly when it was already true
or the message is a Tversion. -/
theorem dispatch_versioned (h : Handler) (s : Server) (b : List Nat) (t : Nat) :
    (Dispatch h s b t).server.Versioned = (s.Versioned || decide (t = 100)) := by
  by_cases ht : t = 100
  · subst ht; simp [Dispatch]
  · rw [Dispatch, if_neg ht]
    by_cases hv : s.Versioned = false
    · simp [hv, ht]
    · simp only [Bool.not_eq_false] at hv
      simp [hv, ht]
      split <;> simp [hv]

/-- The event trace is strictly ordered by `eventKey`, and every event of a
trace numbered from `i` has key at least `2 * i`. -/
theorem serveEvents_sorted (h : Handler) : ∀ (l : List ConnInput) (s : Server) (i : Nat),
    (∀ e ∈ serveEvents h s i l, 2 * i ≤ eventKey e) ∧
    ((serveEvents h s i l).map eventKey).Pairwise (· < ·) := by
  intro l
  induction l with
  | nil => intro s i; simp [serveEvents]
  | cons inp rest ih =>
    intro s i
    simp only [serveEvents]
    by_cases hw : (serveIteration h s inp).wroteCalled = true
    · rw [if_pos hw]
      by_cases hd : (serveIteration h s inp).dead = true
      · rw [if_pos hd]
        constructor
        · intro e he
          simp only [List.mem_cons, List.not_mem_nil, or_false] at he
          rcases he with he | he <;> subst he <;> simp [eventKey]
        · simp only [List.map_cons, List.map_nil, eventKey]
          refine List.Pairwise.cons ?_ (List.pairwise_singleton _ _)
          intro b hb
          simp only [List.mem_cons, List.not_mem_nil, or_false] at hb
          subst hb
          omega
      · rw [if_neg hd]
        obtain ⟨ihb, ihp⟩ := ih (serveIteration h s inp).server (i + 1)
        constructor
        · intro e he
          simp only [List.mem_cons] at he
          rcases he with he | he | he
          · subst he; simp [eventKey]
          · subst he; simp only [eventKey]; omega
          · have := ihb e he
            omega
        · simp only [List.map_cons]
          refine List.Pairwise.cons ?_ (List.Pairwise.cons ?_ ihp)
          · intro k hk
            simp only [List.mem_cons, List.mem_map] at hk
            rcases hk with hk | ⟨e, he, hke⟩
            · subst hk; simp only [eventKey]; omega
            · have := ihb e he
              subst hke
              simp only [eventKey] at this ⊢
              omega
          · intro k hk
            simp only [List.mem_map] at hk
            obtain ⟨e, he, hke⟩ := hk
            have := ihb e he
            subst hke
            simp only [eventKey] at this ⊢
            omega
    · rw [if_neg hw]
      constructor
      · intro e he
        simp only [List.mem_cons, List.not_mem_nil, or_false] at he
        subst he; simp [eventKey]
      · simp

/-- Running the accept loop on `k` consecutive temporary errors sleeps the
`delaysFrom` sequence and keeps going. -/
theorem serveAccept_replicate : ∀ (k d : Nat),
    serveAccept d (List.replicate k .tempErr) = (delaysFrom d k, false) := by
  intro k
  induction k with
  | zero => intro d; rfl
  | succ n ih => intro d; simp [List.replicate_succ, serveAccept, delaysFrom, ih]

/-- One backoff step on a delay of the closed form `min (5ms * 2^j) 1s`
yields the closed form at `j + 1`. -/
theorem nextDelay_closed_form (j : Nat) :
    nextDelay (min (5000000 * 2 ^ j) 1000000000) = min (5000000 * 2 ^ (j + 1)) 1000000000 := by
  have ha : 0 < 5000000 * 2 ^ j := by positivity
  have h2 : 5000000 * 2 ^ (j + 1) = 5000000 * 2 ^ j * 2 := by ring
  have hne : ¬ (min (5000000 * 2 ^ j) 1000000000 = 0) := by omega
  rw [nextDelay, if_neg hne, h2]
  omega

/-- Closed form of the backoff delays starting from `min (5ms * 2^j) 1s`. -/
theorem delaysFrom_closed_form : ∀ (k j : Nat),
    delaysFrom (min (5000000 * 2 ^ j) 1000000000) k =
      (List.range k).map fun i => min (5000000 * 2 ^ (j + 1 + i)) 1000000000 := by
  intro k
  induction k with
  | zero => intro j; rfl
  | succ n ih =>
    intro j
    rw [delaysFrom, nextDelay_closed_form j, ih (j + 1), List.range_succ_eq_map]
    simp only [List.map_cons, List.map_map]
    refine congrArg₂ _ (by norm_num) ?_
    refine List.map_congr_left ?_
    intro i _
    simp only [Function.comp]
    refine congrArg₂ _ (congrArg _ (congrArg _ ?_)) rfl
    omega

/-- Closed form of the backoff delays starting from a reset (zero) delay:
5 ms, 10 ms, 20 ms, ..., capped at 1 s. -/
theorem delaysFrom_zero : ∀ k : Nat,
    delaysFrom 0 k = (List.range k).map fun i => min (5000000 * 2 ^ i) 1000000000 := by
  intro k
  cases k with
  | zero => rfl
  | succ n =>
    have h0 : nextDelay 0 = min (5000000 * 2 ^ 0) 1000000000 := by
      rw [nextDelay]; norm_num
    rw [delaysFrom, h0, delaysFrom_closed_form n 0, List.range_succ_eq_map]
    simp only [List.map_cons, List.map_map]
    refine congrArg₂ _ (by norm_num) ?_
    refine List.map_congr_left ?_
    intro i _
    simp only [Function.comp]
    refine congrArg₂ _ (congrArg _ (congrArg _ ?_)) rfl
    omega

/- ------------------------------------------------------------------ -/
/- Claim theorems.                                                     -/
/- ------------------------------------------------------------------ -/

/-- Claim C1: a T-message whose type is not Tversion, dispatched while the
session is not yet versioned, is answered (the reply is written) with an
Rerror carrying the tag of the client's frame and the ename
"Dispatch: <opname> not allowed before Tversion"; the server state is
unchanged and the connection is not marked dead. -/
theorem gate_rejects_before_tversion (h : Handler) (s : Server) (inp : ConnInput)
    (hhe : inp.headerErr = false) (hlen : inp.header.length = 7)
    (hbe : inp.bodyErr = false) (hwe : inp.writeErr = false)
    (ht : decodeType inp.header ≠ 100) (hv : s.Versioned = false) :
    (serveIteration h s inp).out =
      some (.gateRerror (decodeTag inp.header)
        ("Dispatch: " ++ RPCNames (decodeType inp.header) ++ " not allowed before Tversion")) ∧
    (serveIteration h s inp).wroteCalled = true ∧
    (serveIteration h s inp).server = s ∧
    (serveIteration h s inp).dead = false := by
  have hlt : ¬ inp.header.length < 7 := by omega
  have htag := buf_tag_eq inp.header (inp.bodyStream.take (decodeSize inp.header - 7)) hlen
  simp only [serveIteration, hhe, hlt, hbe, hwe, Bool.false_or, if_neg, if_false,
    Bool.or_self, ite_false, decide_False]
  rw [Dispatch, if_neg ht, if_pos hv]
  simp only [List.getD, List.get?_eq_getElem?] at htag
  simp [htag]

/-- Witness for C1: the spec's gate scenario — Tattach (type 104) with tag 1
before Tversion is answered with Rerror tag 1,
"Dispatch: Tattach not allowed before Tversion". -/
theorem gate_rejects_before_tversion_witness :
    (serveIteration nullHandler ⟨false, 0⟩
        ⟨[19, 0, 0, 0, 104, 1, 0], false, [], false, false⟩).out =
      some (.gateRerror 1 "Dispatch: Tattach not allowed before Tversion") ∧
    (serveIteration nullHandler ⟨false, 0⟩
        ⟨[19, 0, 0, 0, 104, 1, 0], false, [], false, false⟩).wroteCalled = true ∧
    (serveIteration nullHandler ⟨false, 0⟩
        ⟨[19, 0, 0, 0, 104, 1, 0], false, [], false, false⟩).server = ⟨false, 0⟩ ∧
    (serveIteration nullHandler ⟨false, 0⟩
        ⟨[19, 0, 0, 0, 104, 1, 0], false, [], false, false⟩).dead = false := by
  have := gate_rejects_before_tversion nullHandler ⟨false, 0⟩
    ⟨[19, 0, 0, 0, 104, 1, 0], false, [], false, false⟩
    rfl rfl rfl rfl (by decide) rfl
  simpa [decodeTag, decodeType, RPCNames] using this

/-- Claim C10: when the single header `Read` returns fewer than 7 bytes, even
with no error, the connection is marked dead; nothing is dispatched and
nothing is written (the header is never accumulated across reads). -/
theorem short_header_read_kills (h : Handler) (s : Server) (inp : ConnInput)
    (hhe : inp.headerErr = false) (hshort : inp.header.length < 7) :
    (serveIteration h s inp).dead = true ∧
    (serveIteration h s inp).dispatched = false ∧
    (serveIteration h s inp).wroteCalled = false := by
  simp [serveIteration, hhe, hshort]

/-- Witness for C10: a 3-byte error-free header read marks the connection
dead without dispatching. -/
theorem short_header_read_kills_witness :
    (serveIteration nullHandler ⟨true, 0⟩ ⟨[100, 0, 0], false, [], false, false⟩).dead = true ∧
    (serveIteration nullHandler ⟨true, 0⟩ ⟨[100, 0, 0], false, [], false, false⟩).dispatched = false ∧
    (serveIteration nullHandler ⟨true, 0⟩ ⟨[100, 0, 0], false, [], false, false⟩).wroteCalled = false :=
  short_header_read_kills nullHandler ⟨true, 0⟩ ⟨[100, 0, 0], false, [], false, false⟩
    rfl (by decide)

/-- Claim C7: the per-connection loop marks the connection dead exactly on a
header read error or short header read, a body read error, or a write error;
and when the reads succeed the reply is written and the loop's fate depends
only on the write, never on the dispatcher's returned error (the handler `h`
is universally quantified, so a failing dispatcher changes nothing). -/
theorem serve_terminal_conditions (h : Handler) (s : Server) (inp : ConnInput) :
    ((serveIteration h s inp).dead =
      (inp.headerErr || decide (inp.header.length < 7) || inp.bodyErr || inp.writeErr)) ∧
    (inp.headerErr = false → ¬ inp.header.length < 7 → inp.bodyErr = false →
      (serveIteration h s inp).wroteCalled = true ∧
      (serveIteration h s inp).dead = inp.writeErr) := by
  constructor
  · by_cases hhe : inp.headerErr = true
    · simp [serveIteration, hhe]
    · simp only [Bool.not_eq_true] at hhe
      by_cases hlt : inp.header.length < 7
      · simp [serveIteration, hhe, hlt]
      · by_cases hbe : inp.bodyErr = true
        · simp [serveIteration, hhe, hlt, hbe]
        · simp only [Bool.not_eq_true] at hbe
          simp [serveIteration, hhe, hlt, hbe]
  · intro hhe hlt hbe
    simp [serveIteration, hhe, hlt, hbe]

/-- Witness for C7: with error-free reads and write, a dispatcher that
returns an error (failHandler) still gets its reply written and the
connection stays alive. -/
theorem serve_terminal_conditions_witness :
    (serveIteration failHandler ⟨true, 0⟩
        ⟨[7, 0, 0, 0, 104, 1, 0], false, [], false, false⟩).wroteCalled = true ∧
    (serveIteration failHandler ⟨true, 0⟩
        ⟨[7, 0, 0, 0, 104, 1, 0], false, [], false, false⟩).dead = false :=
  (serve_terminal_conditions failHandler ⟨true, 0⟩
    ⟨[7, 0, 0, 0, 104, 1, 0], false, [], false, false⟩).2 rfl (by decide) rfl

/-- Claim C9: `Versioned` is monotone — once true, it stays true across any
further sequence of `Dispatch` calls on the same server. -/
theorem versioned_monotone (h : Handler) (s : Server) (msgs : List (List Nat × Nat))
    (hv : s.Versioned = true) :
    (dispatchList h s msgs).Versioned = true := by
  induction msgs generalizing s with
  | nil => exact hv
  | cons m rest ih =>
    obtain ⟨b, t⟩ := m
    exact ih _ (by rw [dispatch_versioned, hv, Bool.true_or])

/-- Witness for C9: a versioned server stays versioned across a Tattach, a
second Tversion and an unknown opcode. -/
theorem versioned_monotone_witness :
    (dispatchList nullHandler ⟨true, 0⟩
      [([1, 0], 104), ([255, 255], 100), ([2, 0], 55)]).Versioned = true :=
  versioned_monotone nullHandler ⟨true, 0⟩
    [([1, 0], 104), ([255, 255], 100), ([2, 0], 55)] rfl

/-- Counterexample to C3: `Dispatch` sets `Versioned := true` in its first
switch, before the `SrvRversion` handler runs; a Tversion whose handling
fails (the handler returns an error) still leaves the flag set, so the gate
does not stay closed after a failed Tversion. -/
theorem tversion_failure_still_sets_versioned :
    (Dispatch failHandler ⟨false, 0⟩ [255, 255] 100).err = true ∧
    (Dispatch failHandler ⟨false, 0⟩ [255, 255] 100).server.Versioned = true := by
  decide

/-- Claim C3 as amended: the `Versioned` flag becomes true whenever a
Tversion is dispatched — before and regardless of the outcome of its
handler — and no other message type changes the flag. -/
theorem versioned_set_on_any_tversion (h : Handler) (s : Server) (b : List Nat) (t : Nat) :
    (t = 100 → (Dispatch h s b t).server.Versioned = true) ∧
    (t ≠ 100 → (Dispatch h s b t).server.Versioned = s.Versioned) := by
  constructor <;> intro ht <;> rw [dispatch_versioned] <;> simp [ht]

/-- Witness for amended C3: a failed Tversion sets the flag; a Tattach on a
versioned server leaves it. -/
theorem versioned_set_on_any_tversion_witness :
    (Dispatch failHandler ⟨false, 5⟩ [1, 0] 100).server.Versioned = true ∧
    (Dispatch failHandler ⟨true, 5⟩ [1, 0] 104).server.Versioned = true := by
  refine ⟨(versioned_set_on_any_tversion failHandler ⟨false, 5⟩ [1, 0] 100).1 rfl, ?_⟩
  have := (versioned_set_on_any_tversion failHandler ⟨true, 5⟩ [1, 0] 104).2 (by decide)
  simpa using this

/-- Claim C5: a T-message type with no handler case in `Dispatch`, once past
the Tversion gate, falls through to `ServerError` with an Rerror body
"Dispatch: <opname> not supported", `Dispatch` returns nil, the reply is
written and the connection stays up. -/
theorem unsupported_opcode_rerror (h : Handler) (s : Server) (inp : ConnInput)
    (hhe : inp.headerErr = false) (hlen : inp.header.length = 7)
    (hbe : inp.bodyErr = false) (hwe : inp.writeErr = false)
    (hv : s.Versioned = true)
    (ht : decodeType inp.header ∉ handledTypes) :
    (serveIteration h s inp).out =
      some (.serverError ("Dispatch: " ++ RPCNames (decodeType inp.header) ++ " not supported")) ∧
    (serveIteration h s inp).dispatchErr = false ∧
    (serveIteration h s inp).wroteCalled = true ∧
    (serveIteration h s inp).dead = false := by
  have hlt : ¬ inp.header.length < 7 := by omega
  have ht100 : decodeType inp.header ≠ 100 := by
    intro hx; exact ht (by rw [hx]; decide)
  have hvf : ¬ s.Versioned = false := by simp [hv]
  simp only [serveIteration, hhe, hlt, hbe, hwe, Bool.false_or, decide_False, ite_false]
  rw [Dispatch, if_neg ht100, if_neg hvf, if_neg ht]
  simp

/-- Witness for C5: Tauth (type 102) has no handler case; on a versioned
server it yields Rerror "Dispatch: Tauth not supported", a nil return, and a
live connection. -/
theorem unsupported_opcode_rerror_witness :
    (serveIteration nullHandler ⟨true, 0⟩
        ⟨[7, 0, 0, 0, 102, 5, 0], false, [], false, false⟩).out =
      some (.serverError "Dispatch: Tauth not supported") ∧
    (serveIteration nullHandler ⟨true, 0⟩
        ⟨[7, 0, 0, 0, 102, 5, 0], false, [], false, false⟩).dispatchErr = false ∧
    (serveIteration nullHandler ⟨true, 0⟩
        ⟨[7, 0, 0, 0, 102, 5, 0], false, [], false, false⟩).wroteCalled = true ∧
    (serveIteration nullHandler ⟨true, 0⟩
        ⟨[7, 0, 0, 0, 102, 5, 0], false, [], false, false⟩).dead = false := by
  have := unsupported_opcode_rerror nullHandler ⟨true, 0⟩
    ⟨[7, 0, 0, 0, 102, 5, 0], false, [], false, false⟩
    rfl rfl rfl rfl rfl (by decide)
  simpa [decodeType, RPCNames] using this

/-- Claim C8: the 7-byte header decodes as little-endian unsigned fields —
size from bytes 0-3, type from byte 4, tag from bytes 5-6 — and the body
read then delivers exactly size - 7 further bytes (when the stream provides
them). -/
theorem header_decode_le (h : Handler) (s : Server) (inp : ConnInput)
    (b0 b1 b2 b3 b4 b5 b6 : Nat)
    (hhdr : inp.header = [b0, b1, b2, b3, b4, b5, b6])
    (hhe : inp.headerErr = false) (hbe : inp.bodyErr = false)
    (hav : decodeSize inp.header - 7 ≤ inp.bodyStream.length) :
    decodeSize inp.header = b0 + b1 * 256 + b2 * 65536 + b3 * 16777216 ∧
    decodeType inp.header = b4 ∧
    decodeTag inp.header = b5 + b6 * 256 ∧
    (serveIteration h s inp).bodyRead.length = decodeSize inp.header - 7 := by
  have hlt : ¬ inp.header.length < 7 := by rw [hhdr]; simp
  refine ⟨by rw [hhdr]; rfl, by rw [hhdr]; rfl, by rw [hhdr]; rfl, ?_⟩
  simp only [serveIteration, hhe, hlt, hbe, Bool.false_or, decide_False, ite_false]
  simpa using hav

/-- Witness for C8: header bytes [9,0,0,0,104,1,0] decode to size 9, type
104 (Tattach), tag 1, and exactly 2 = 9 - 7 body bytes are read. -/
theorem header_decode_le_witness :
    decodeSize [9, 0, 0, 0, 104, 1, 0] = 9 ∧
    decodeType [9, 0, 0, 0, 104, 1, 0] = 104 ∧
    decodeTag [9, 0, 0, 0, 104, 1, 0] = 1 ∧
    (serveIteration nullHandler ⟨true, 0⟩
        ⟨[9, 0, 0, 0, 104, 1, 0], false, [7, 8, 9], false, false⟩).bodyRead.length =
      decodeSize [9, 0, 0, 0, 104, 1, 0] - 7 := by
  have := header_decode_le nullHandler ⟨true, 0⟩
    ⟨[9, 0, 0, 0, 104, 1, 0], false, [7, 8, 9], false, false⟩
    9 0 0 0 104 1 0 rfl rfl rfl (by decide)
  simpa [decodeSize, decodeType, decodeTag] using this

/-- Counterexample to C4: `conn.serve` performs no size validation. A frame
declaring size 4294967295 (the largest encodable size, exceeding any
negotiated msize the session could hold) is not rejected: it is passed to
the dispatcher and the connection stays alive. A frame declaring size 3 < 7
is not treated as malformed either: it too reaches the dispatcher (with an
empty body), rather than being withheld. -/
theorem no_size_check_cex :
    (serveIteration nullHandler ⟨true, 0⟩
        ⟨[255, 255, 255, 255, 104, 1, 0], false, [], false, false⟩).dispatched = true ∧
    (serveIteration nullHandler ⟨true, 0⟩
        ⟨[255, 255, 255, 255, 104, 1, 0], false, [], false, false⟩).dead = false ∧
    (serveIteration nullHandler ⟨true, 0⟩
        ⟨[3, 0, 0, 0, 104, 1, 0], false, [9, 9], false, false⟩).dispatched = true ∧
    (serveIteration nullHandler ⟨true, 0⟩
        ⟨[3, 0, 0, 0, 104, 1, 0], false, [9, 9], false, false⟩).dead = false ∧
    (serveIteration nullHandler ⟨true, 0⟩
        ⟨[3, 0, 0, 0, 104, 1, 0], false, [9, 9], false, false⟩).bodyRead = [] := by
  decide

/-- Claim C4 as amended: the connection reader performs no size validation
at all — every frame whose header and body reads succeed is passed to the
dispatcher regardless of its declared size (in particular sizes exceeding
any msize, and sizes below 7, whose body comes back empty since the
`LimitReader` limit `size - 7` is non-positive); the body read delivers
min(size - 7, available) bytes. -/
theorem no_size_check (h : Handler) (s : Server) (inp : ConnInput)
    (hhe : inp.headerErr = false) (hlt : ¬ inp.header.length < 7)
    (hbe : inp.bodyErr = false) :
    (serveIteration h s inp).dispatched = true ∧
    (serveIteration h s inp).bodyRead =
      inp.bodyStream.take (decodeSize inp.header - 7) ∧
    (serveIteration h s inp).dead = inp.writeErr := by
  simp [serveIteration, hhe, hlt, hbe]

/-- Claim C2: in the serial per-connection loop, the reply to any earlier
request is written strictly before any later frame — in particular the
Tflush frame — is even read; hence once the Rflush reply (the write of the
Tflush's iteration) is on the wire, no reply for the earlier oldtag request
can follow. Positions are indices into the loop's event trace; `ip < jp`
says request `ip` was received before request `jp`. -/
theorem earlier_reply_precedes_later_read (h : Handler) (s : Server) (i : Nat)
    (l : List ConnInput) (p q ip jp : Nat)
    (hp : (serveEvents h s i l)[p]? = some (.write ip))
    (hq : (serveEvents h s i l)[q]? = some (.readf jp))
    (hij : ip < jp) : p < q := by
  obtain ⟨hplen, hpget⟩ := List.getElem?_eq_some_iff.mp hp
  obtain ⟨hqlen, hqget⟩ := List.getElem?_eq_some_iff.mp hq
  by_contra hle
  push_neg at hle
  rcases Nat.eq_or_lt_of_le hle with heq | hlt
  · subst heq
    exact absurd (hpget.symm.trans hqget) (by simp)
  · have hpair := List.pairwise_iff_getElem.mp (serveEvents_sorted h l s i).2 q p
      (by simpa using hqlen) (by simpa using hplen) hlt
    rw [List.getElem_map, List.getElem_map] at hpair
    rw [hqget, hpget] at hpair
    simp only [eventKey] at hpair
    omega

/-- Witness for C2: the spec's flush scenario — request 0 is a Tread with
tag 5, request 1 is a Tflush with tag 6 and oldtag 5; in the resulting trace
the Rread write (position 1) precedes the Tflush read (position 2). -/
theorem earlier_reply_precedes_later_read_witness :
    (serveEvents nullHandler ⟨true, 0⟩ 0
        [⟨[7, 0, 0, 0, 116, 5, 0], false, [], false, false⟩,
         ⟨[9, 0, 0, 0, 108, 6, 0], false, [5, 0], false, false⟩])[1]? =
      some (.write 0) ∧
    (serveEvents nullHandler ⟨true, 0⟩ 0
        [⟨[7, 0, 0, 0, 116, 5, 0], false, [], false, false⟩,
         ⟨[9, 0, 0, 0, 108, 6, 0], false, [5, 0], false, false⟩])[2]? =
      some (.readf 1) ∧
    1 < 2 :=
  ⟨by decide, by decide,
    earlier_reply_precedes_later_read nullHandler ⟨true, 0⟩ 0
      [⟨[7, 0, 0, 0, 116, 5, 0], false, [], false, false⟩,
       ⟨[9, 0, 0, 0, 108, 6, 0], false, [5, 0], false, false⟩]
      1 2 0 1 (by decide) (by decide) (by decide)⟩

/-- Claim C6: the acceptor's backoff — a successful accept resets the delay
to zero; a non-temporary error makes `Serve` return with the error and no
further sleeping; `k` consecutive temporary errors starting from a reset
delay sleep 5 ms, 10 ms, 20 ms, ... (nanoseconds: min (5000000 * 2^i)
1000000000 for the i-th consecutive failure), capped at 1 s. -/
theorem accept_backoff_policy :
    (∀ (d : Nat) (rest : List AcceptOutcome),
      serveAccept d (.ok :: rest) = serveAccept 0 rest) ∧
    (∀ (d : Nat) (rest : List AcceptOutcome),
      serveAccept d (.fatalErr :: rest) = ([], true)) ∧
    (∀ k : Nat, (serveAccept 0 (List.replicate k .tempErr)).1 =
      (List.range k).map fun i => min (5000000 * 2 ^ i) 1000000000) := by
  refine ⟨fun d rest => rfl, fun d rest => rfl, fun k => ?_⟩
  rw [serveAccept_replicate k 0]
  exact delaysFrom_zero k

/-- Witness for amended C4: the oversize frame of the counterexample is
dispatched with an empty body read. -/
theorem no_size_check_witness :
    (serveIteration nullHandler ⟨true, 0⟩
        ⟨[255, 255, 255, 255, 104, 1, 0], false, [], false, false⟩).dispatched = true ∧
    (serveIteration nullHandler ⟨true, 0⟩
        ⟨[255, 255, 255, 255, 104, 1, 0], false, [], false, false⟩).bodyRead = [] ∧
    (serveIteration nullHandler ⟨true, 0⟩
        ⟨[255, 255, 255, 255, 104, 1, 0], false, [], false, false⟩).dead = false := by
  have := no_size_check nullHandler ⟨true, 0⟩
    ⟨[255, 255, 255, 255, 104, 1, 0], false, [], false, false⟩
    rfl (by decide) rfl
  simpa using this

end NineP
